import Mathlib

/-!
# Warzone Hub backend — balance-and-escrow core, shallowly embedded

A shallow embedding of the wallet / payment-request / match-escrow core of
`src/index.js` (Express + Firestore backend). Each HTTP handler's
transaction body becomes a Lean function `DB → Except String DB`: a thrown
error inside `db.runTransaction` aborts every write of that transaction, so
an `Except.error` result carries no state change, and `commit` keeps the
prior state on error.

Modelling decisions, each tied to the source:
* Money is `Int`. The source coerces request-body fields with `Number(...)`
  and does plain arithmetic on them; the claims under study are about
  sign/ordering/conservation, which `Int` captures.
* A wallet document may be absent; every read coalesces missing fields with
  `Number(x || 0)` and `ensureWallet` initializes `{available:0, locked:0}`,
  so wallets are modelled as a total function `String → Wallet` whose
  default is the zero wallet.
* Firestore collections keyed by auto-ids become association lists
  `List (String × α)`; `findDoc` is `doc(...).get` (first match), `updateDoc`
  is `t.update`, appending is `collection.add` / `t.set(col.doc(), ...)`.
* Timestamps (`Date.now()`, `createdAt`, `lastUpdated`, `approvedAt`, ...)
  are dropped except where a value is compared: `joinMatch` compares
  `Date.now()` with `match.startTime`, so it takes `now : Int`.
* The admin-role lookup (`artifacts/.../admin/<uid>` with `role == "admin"`)
  is modelled as `admins : String → Bool`.
-/

namespace Warzone

/-- Wallet document `artifacts/<app>/users/<uid>/wallet/current`:
two money pools. -/
structure Wallet where
  available : Int
  locked : Int
deriving Repr, DecidableEq

/-- Document of the `payment_requests` collection. `rtype` is the source's
`type` field (`"deposit" | "withdraw" | "prize"`); `status` is
`"pending" | "approved" | "denied"`. -/
structure PaymentRequest where
  uid : String
  amount : Int
  rtype : String
  status : String
  paymentRef : Option String
  upi : Option String
  matchId : Option String
  approvedBy : Option String
  deniedBy : Option String
deriving Repr, DecidableEq

/-- Document of the `matches` collection. `startTime = 0` plays the role of
a falsy/absent start time, matching `if (match.startTime && ...)`. -/
structure GameMatch where
  slots : Int
  fee : Int
  prize : Int
  startTime : Int
  status : String
  winnerUID : Option String
  payoutRequested : Bool
  payoutStatus : Option String
  createdBy : String
deriving Repr, DecidableEq

/-- Roster entry `matches/<id>/players/<uid>`; `feeLocked` is the fee
snapshot taken at join time. -/
structure Player where
  uid : String
  feeLocked : Int
deriving Repr, DecidableEq

/-- The persistent state the handlers read and write. -/
structure DB where
  admins : String → Bool
  wallets : String → Wallet
  requests : List (String × PaymentRequest)
  matchDocs : List (String × GameMatch)
  roster : String → List Player

/-- `db.doc(col/id).get` over an association list: first binding wins,
like a keyed document store. -/
def findDoc {α : Type} : List (String × α) → String → Option α
  | [], _ => none
  | (k, v) :: rest, id => if k = id then some v else findDoc rest id

/-- `t.update(ref, patch)`: rewrite the document(s) bound to `id`. -/
def updateDoc {α : Type} (docs : List (String × α)) (id : String) (f : α → α) :
    List (String × α) :=
  docs.map (fun p => if p.1 = id then (p.1, f p.2) else p)

/-- Point update of the wallet store (`t.set(walletRef, {...}, {merge:true})`
with both fields written). -/
def writeWallet (ws : String → Wallet) (uid : String) (w : Wallet) :
    String → Wallet :=
  fun u => if u = uid then w else ws u

/-! ## Wallet-level mutations, as inlined in the handlers -/

/-- Lines 229–234: the withdrawal-request lock (also the match-join fee
lock, lines 421–426): `available -= amount; locked += amount`. -/
def lockFunds (w : Wallet) (amount : Int) : Wallet :=
  { available := w.available - amount, locked := w.locked + amount }

/-- Lines 347–352: the withdrawal-deny refund:
`available += amount; locked = max(0, locked - amount)`. -/
def releaseToAvailable (w : Wallet) (amount : Int) : Wallet :=
  { available := w.available + amount, locked := max 0 (w.locked - amount) }

/-- Lines 293–298 (withdraw approve) and 600–605 (settle fee burn):
`locked = max(0, locked - amount)`, available untouched. -/
def finalizeLocked (w : Wallet) (amount : Int) : Wallet :=
  { available := w.available, locked := max 0 (w.locked - amount) }

/-- Lines 184–189 (deposit approve) and 538–543 (prize approve):
`available += amount`, locked untouched. -/
def creditAvailable (w : Wallet) (amount : Int) : Wallet :=
  { available := w.available + amount, locked := w.locked }

/-! ## The handlers (transaction bodies) -/

/-- `POST /api/wallet/deposit/request` (lines 114–153). `ref` is
`paymentRef || utr`; rejects `!amount || !ref || amount < 20`; rejects a
duplicate `(uid, paymentRef)` pair found by the indexed pre-query; else
adds one pending deposit request. -/
def refOf (paymentRef utr : String) : String :=
  if paymentRef ≠ "" then paymentRef else utr

def depositRequest (db : DB) (uid paymentRef utr : String) (amount : Int)
    (newId : String) : Except String DB :=
  if amount = 0 ∨ refOf paymentRef utr = "" ∨ amount < 20 then
    .error "Invalid deposit parameters. Min: ₹20"
  else if db.requests.any
      (fun p => p.2.uid == uid && p.2.paymentRef == some (refOf paymentRef utr)) then
    .error "This reference has already been submitted by your account."
  else
    .ok { db with requests := db.requests ++ [(newId,
      { uid := uid, amount := amount, rtype := "deposit", status := "pending",
        paymentRef := some (refOf paymentRef utr), upi := none, matchId := none,
        approvedBy := none, deniedBy := none })] }

/-- `POST /api/admin/deposit/approve` (lines 158–204): admin gate, then in
one transaction: request must exist and be pending; credit `amount` to the
request's uid's available pool; mark the request approved. -/
def depositApprove (db : DB) (adminUid requestId : String) : Except String DB :=
  if db.admins adminUid = true then
    match findDoc db.requests requestId with
    | some r =>
      if r.status = "pending" then
        .ok { db with
              wallets := writeWallet db.wallets r.uid
                (creditAvailable (db.wallets r.uid) r.amount),
              requests := updateDoc db.requests requestId
                (fun q => { q with status := "approved", approvedBy := some adminUid }) }
      else .error "Request already processed or invalid."
    | none => .error "Request already processed or invalid."
  else .error "Access Denied: Admin privileges required."

/-- `POST /api/wallet/withdraw/request` (lines 209–254): rejects
`!amount || amount < 20 || !upi`; in one transaction requires
`amount ≤ available`, locks the funds and adds one pending withdraw
request. -/
def withdrawRequest (db : DB) (uid : String) (amount : Int) (upi : String)
    (newId : String) : Except String DB :=
  if amount = 0 ∨ amount < 20 ∨ upi = "" then
    .error "Minimum withdrawal is ₹20"
  else
    if amount > (db.wallets uid).available then
      .error "Insufficient available balance for extraction"
    else
      .ok { db with
            wallets := writeWallet db.wallets uid (lockFunds (db.wallets uid) amount),
            requests := db.requests ++ [(newId,
              { uid := uid, amount := amount, rtype := "withdraw",
                status := "pending", paymentRef := none, upi := some upi,
                matchId := none, approvedBy := none, deniedBy := none })] }

/-- `POST /api/admin/withdraw/approve` (lines 259–312): admin gate; request
must exist, be pending AND have type `"withdraw"`; requires
`amount ≤ locked` (else "Locked balance inconsistency"); then finalizes the
locked amount and marks approved. -/
def withdrawApprove (db : DB) (adminUid requestId : String) : Except String DB :=
  if db.admins adminUid = true then
    match findDoc db.requests requestId with
    | some r =>
      if r.status = "pending" then
        if r.rtype = "withdraw" then
          if r.amount > (db.wallets r.uid).locked then
            .error "Locked balance inconsistency. Cannot approve."
          else
            .ok { db with
                  wallets := writeWallet db.wallets r.uid
                    (finalizeLocked (db.wallets r.uid) r.amount),
                  requests := updateDoc db.requests requestId
                    (fun q => { q with status := "approved", approvedBy := some adminUid }) }
        else .error "Invalid request type."
      else .error "Invalid request state"
    | none => .error "Invalid request state"
  else .error "Admin only"

/-- `POST /api/admin/withdraw/deny` (lines 317–366): admin gate; request
must exist and be pending — NOTE: unlike approve, the source never checks
`type`; requires `amount ≤ locked`; then refunds locked → available and
marks denied. -/
def withdrawDeny (db : DB) (adminUid requestId : String) : Except String DB :=
  if db.admins adminUid = true then
    match findDoc db.requests requestId with
    | some r =>
      if r.status = "pending" then
        if r.amount > (db.wallets r.uid).locked then
          .error "Locked balance inconsistency detected."
        else
          .ok { db with
                wallets := writeWallet db.wallets r.uid
                  (releaseToAvailable (db.wallets r.uid) r.amount),
                requests := updateDoc db.requests requestId
                  (fun q => { q with status := "denied", deniedBy := some adminUid }) }
      else .error "Invalid request state"
    | none => .error "Invalid request state"
  else .error "Admin only"

/-- `POST /api/match/join` (lines 371–442), one transaction: match must
exist; no roster entry for `uid`; deployment window open
(`!(startTime && now ≥ startTime)`); match `status == "open"`; roster size
(taken from the players collection) strictly below `slots`; fee covered by
`available`. Then lock the fee and append the roster entry with the
`feeLocked` snapshot. -/
def joinMatch (db : DB) (uid matchId : String) (now : Int) : Except String DB :=
  match findDoc db.matchDocs matchId with
  | none => .error "Match not found"
  | some m =>
    if (db.roster matchId).any (fun p => p.uid == uid) then
      .error "Unit already deployed in this match."
    else if m.startTime ≠ 0 ∧ now ≥ m.startTime then
      .error "Match deployment window closed."
    else if m.status ≠ "open" then
      .error "Match sector is no longer open for deployment."
    else if m.slots ≤ ((db.roster matchId).length : Int) then
      .error "Match is full. All deployment slots occupied."
    else
      if m.fee > (db.wallets uid).available then
        .error "Insufficient available credits for deployment."
      else
        .ok { db with
              wallets := writeWallet db.wallets uid (lockFunds (db.wallets uid) m.fee),
              roster := fun mid =>
                if mid = matchId then
                  db.roster matchId ++ [{ uid := uid, feeLocked := m.fee }]
                else db.roster mid }

/-- One iteration of the settle loop (lines 591–606): burn the roster
entry's `feeLocked` from that player's locked pool, clamped at zero. -/
def settleOne (ws : String → Wallet) (p : Player) : String → Wallet :=
  writeWallet ws p.uid (finalizeLocked (ws p.uid) p.feeLocked)

/-- `POST /api/admin/match/settle` (lines 567–620): admin gate; match must
exist and not already be `"claimed"`; burn every roster entry's locked fee
(reads see earlier writes of the same transaction, hence a left fold); set
`status = "claimed"` and `winnerUID`. -/
def settleMatch (db : DB) (adminUid matchId winnerUID : String) :
    Except String DB :=
  if db.admins adminUid = true then
    match findDoc db.matchDocs matchId with
    | none => .error "Match not found"
    | some m =>
      if m.status = "claimed" then .error "Match already settled."
      else
        .ok { db with
              wallets := (db.roster matchId).foldl settleOne db.wallets,
              matchDocs := updateDoc db.matchDocs matchId
                (fun q => { q with status := "claimed", winnerUID := some winnerUID }) }
  else .error "Admin only"

/-- `POST /api/admin/prize/approve` (lines 508–562): admin gate; request
must exist and be pending — the source never checks its `type`; the match
named by the request's `matchId` (path interpolation turns an absent field
into the literal id `"undefined"`) must exist with `status == "claimed"`;
then credit `amount` to available, mark the request approved and stamp the
match `payoutStatus = "paid"`. -/
def prizeApprove (db : DB) (adminUid requestId : String) : Except String DB :=
  if db.admins adminUid = true then
    match findDoc db.requests requestId with
    | some r =>
      if r.status = "pending" then
        match findDoc db.matchDocs (r.matchId.getD "undefined") with
        | some m =>
          if m.status = "claimed" then
            .ok { db with
                  wallets := writeWallet db.wallets r.uid
                    (creditAvailable (db.wallets r.uid) r.amount),
                  requests := updateDoc db.requests requestId
                    (fun q => { q with status := "approved", approvedBy := some adminUid }),
                  matchDocs := updateDoc db.matchDocs (r.matchId.getD "undefined")
                    (fun q => { q with payoutStatus := some "paid" }) }
          else .error "Associated match is not eligible for payout (Not Claimed)"
        | none => .error "Associated match is not eligible for payout (Not Claimed)"
      else .error "Invalid or already processed request"
    | none => .error "Invalid or already processed request"
  else .error "Admin only"

/-- `POST /api/admin/match/create` (lines 625–656): admin gate; the ONLY
parameter validation is `startTime` present and numeric (`none` models
absent or non-numeric); `slots` and `fee` are written as given with no
range check; the new match has `status = "open"` and no roster writes. -/
def createMatch (db : DB) (adminUid : String) (slots fee prize : Int)
    (startTime : Option Int) (newId : String) : Except String DB :=
  if db.admins adminUid = true then
    match startTime with
    | none => .error "Invalid match start time"
    | some st =>
      .ok { db with matchDocs := db.matchDocs ++ [(newId,
        { slots := slots, fee := fee, prize := prize, startTime := st,
          status := "open", winnerUID := none, payoutRequested := false,
          payoutStatus := none, createdBy := adminUid })] }
  else .error "Admin only"

/-! ## Operation sequences -/

/-- The committed operations claim C1 ranges over. -/
inductive Op where
  | depositApprove (adminUid requestId : String)
  | withdrawRequest (uid : String) (amount : Int) (upi newId : String)
  | withdrawApprove (adminUid requestId : String)
  | withdrawDeny (adminUid requestId : String)
  | joinMatch (uid matchId : String) (now : Int)
  | settleMatch (adminUid matchId winnerUID : String)
  | prizeApprove (adminUid requestId : String)

def step (db : DB) : Op → Except String DB
  | .depositApprove a r => depositApprove db a r
  | .withdrawRequest u amt upi id => withdrawRequest db u amt upi id
  | .withdrawApprove a r => withdrawApprove db a r
  | .withdrawDeny a r => withdrawDeny db a r
  | .joinMatch u m now => joinMatch db u m now
  | .settleMatch a m w => settleMatch db a m w
  | .prizeApprove a r => prizeApprove db a r

/-- Transaction semantics: a thrown error aborts all writes, leaving the
state unchanged; a completed operation commits its result. -/
def commit (db : DB) (op : Op) : DB :=
  match step db op with
  | .ok d => d
  | .error _ => db

def run (db : DB) (ops : List Op) : DB := ops.foldl commit db

/-! ## Invariants and store lemmas -/

/-- Both pools of every wallet are non-negative. -/
def NonnegW (ws : String → Wallet) : Prop :=
  ∀ u, 0 ≤ (ws u).available ∧ 0 ≤ (ws u).locked

def WalletsNonneg (db : DB) : Prop := NonnegW db.wallets

/-- Every stored payment request carries a non-negative amount (the
request-creation endpoints enforce ≥ 20 for deposits/withdrawals and > 0
for prizes). -/
def AmountsNonneg (db : DB) : Prop := ∀ p ∈ db.requests, 0 ≤ p.2.amount

/-- Every stored match carries a non-negative entry fee (NOT enforced by
`createMatch` — see C7). -/
def FeesNonneg (db : DB) : Prop := ∀ p ∈ db.matchDocs, 0 ≤ p.2.fee

/-- The joint inductive invariant used for claim C1. -/
def Inv (db : DB) : Prop := WalletsNonneg db ∧ AmountsNonneg db ∧ FeesNonneg db

/-! ## Concrete stores used by witnesses and counterexamples -/

/-- A zero-wallet, admin-enabled, otherwise empty store. -/
def emptyDB : DB :=
  { admins := fun _ => true,
    wallets := fun _ => { available := 0, locked := 0 },
    requests := [], matchDocs := [], roster := fun _ => [] }

/-- The empty store with every wallet at `{available := 40, locked := 0}`. -/
def fortyDB : DB :=
  { emptyDB with wallets := fun _ => { available := 40, locked := 0 } }

/-- The store reached from `emptyDB` by an admin creating a match with
entry fee -1 — accepted, since `createMatch` validates only `startTime`. -/
def c1badDB : DB :=
  match createMatch emptyDB "a" 1 (-1) 0 (some 100) "m" with
  | .ok d => d
  | .error _ => emptyDB

/-- An already-approved deposit request, for the double-resolution claim. -/
def c2req : PaymentRequest :=
  { uid := "u", amount := 50, rtype := "deposit", status := "approved",
    paymentRef := some "p1", upi := none, matchId := none,
    approvedBy := some "a", deniedBy := none }

def c2db : DB := { emptyDB with requests := [("r1", c2req)] }

/-- A pending DEPOSIT request, used against the withdrawal resolvers. -/
def c3req : PaymentRequest :=
  { uid := "u", amount := 20, rtype := "deposit", status := "pending",
    paymentRef := some "p1", upi := none, matchId := none,
    approvedBy := none, deniedBy := none }

/-- Store with the pending deposit request and a wallet holding locked
funds (say from an open match fee), so the deny refund guard passes. -/
def c3db : DB :=
  { emptyDB with
    wallets := fun _ => { available := 0, locked := 25 },
    requests := [("r1", c3req)] }

/-- A pending withdraw request for 30 against a wallet with locked = 10. -/
def c4req : PaymentRequest :=
  { uid := "u", amount := 30, rtype := "withdraw", status := "pending",
    paymentRef := none, upi := some "u@upi", matchId := none,
    approvedBy := none, deniedBy := none }

def c4match : GameMatch :=
  { slots := 2, fee := 30, prize := 50, startTime := 100, status := "open",
    winnerUID := none, payoutRequested := false, payoutStatus := none,
    createdBy := "a" }

def c4db : DB :=
  { emptyDB with
    wallets := fun _ => { available := 0, locked := 10 },
    requests := [("r1", c4req)],
    matchDocs := [("m", c4match)],
    roster := fun mid =>
      if mid = "m" then [{ uid := "u", feeLocked := 30 }] else [] }

/-- An open single-slot match whose roster is already full. -/
def c6match : GameMatch :=
  { slots := 1, fee := 20, prize := 30, startTime := 100, status := "open",
    winnerUID := none, payoutRequested := false, payoutStatus := none,
    createdBy := "a" }

def c6db : DB :=
  { emptyDB with
    wallets := fun _ => { available := 50, locked := 0 },
    matchDocs := [("m", c6match)],
    roster := fun mid =>
      if mid = "m" then [{ uid := "v", feeLocked := 20 }] else [] }

/-- A pending request of type "deposit" that nevertheless references a
claimed match — prize approval accepts it (no type check). -/
def c10req : PaymentRequest :=
  { uid := "u", amount := 55, rtype := "deposit", status := "pending",
    paymentRef := some "x1", upi := none, matchId := some "m",
    approvedBy := none, deniedBy := none }

def c10match : GameMatch :=
  { slots := 2, fee := 20, prize := 55, startTime := 5, status := "claimed",
    winnerUID := some "u", payoutRequested := true, payoutStatus := none,
    createdBy := "a" }

def c10db : DB :=
  { emptyDB with requests := [("r1", c10req)], matchDocs := [("m", c10match)] }

theorem findDoc_mem {α : Type} {docs : List (String × α)} {id : String} {v : α}
    (h : findDoc docs id = some v) : (id, v) ∈ docs := by
  induction docs with
  | nil => simp [findDoc] at h
  | cons p rest ih =>
    obtain ⟨k, w⟩ := p
    by_cases hk : k = id
    · subst hk
      simp [findDoc] at h
      subst h
      exact List.mem_cons_self _ _
    · simp only [findDoc, if_neg hk] at h
      exact List.mem_cons_of_mem _ (ih h)

theorem mem_updateDoc {α : Type} {docs : List (String × α)} {id : String}
    {f : α → α} {p : String × α} (hp : p ∈ updateDoc docs id f) :
    p ∈ docs ∨ ∃ q, (p.1, q) ∈ docs ∧ p.2 = f q := by
  unfold updateDoc at hp
  rcases List.mem_map.mp hp with ⟨a, ha, hpa⟩
  by_cases h : a.1 = id
  · rw [if_pos h] at hpa
    right
    refine ⟨a.2, ?_, ?_⟩
    · rw [← hpa]
      simpa using ha
    · rw [← hpa]
  · rw [if_neg h] at hpa
    left
    rw [← hpa]
    exact ha

theorem findDoc_cons {α : Type} (k : String) (v : α) (rest : List (String × α))
    (id : String) :
    findDoc ((k, v) :: rest) id = if k = id then some v else findDoc rest id := rfl

theorem findDoc_updateDoc {α : Type} (docs : List (String × α)) (id : String)
    (f : α → α) : findDoc (updateDoc docs id f) id = (findDoc docs id).map f := by
  induction docs with
  | nil => rfl
  | cons p rest ih =>
    obtain ⟨k, w⟩ := p
    rw [show updateDoc ((k, w) :: rest) id f
        = (if k = id then (k, f w) else (k, w)) :: updateDoc rest id f from rfl]
    by_cases hk : k = id
    · rw [if_pos hk, findDoc_cons, findDoc_cons, if_pos hk, if_pos hk,
        Option.map_some']
    · rw [if_neg hk, findDoc_cons, findDoc_cons, if_neg hk, if_neg hk, ih]

theorem findDoc_append_of_none {α : Type} {docs : List (String × α)}
    {id : String} (h : findDoc docs id = none) (v : α) :
    findDoc (docs ++ [(id, v)]) id = some v := by
  induction docs with
  | nil => simp [findDoc]
  | cons p rest ih =>
    obtain ⟨k, w⟩ := p
    by_cases hk : k = id
    · subst hk
      simp [findDoc] at h
    · simp only [findDoc, if_neg hk] at h ⊢
      exact ih h

theorem nonnegW_writeWallet {ws : String → Wallet} {uid : String} {w : Wallet}
    (hav : 0 ≤ w.available) (hlk : 0 ≤ w.locked) (h : NonnegW ws) :
    NonnegW (writeWallet ws uid w) := by
  intro u
  unfold writeWallet
  by_cases hu : u = uid
  · rw [if_pos hu]
    exact ⟨hav, hlk⟩
  · rw [if_neg hu]
    exact h u

theorem nonnegW_settle {l : List Player} {ws : String → Wallet}
    (h : NonnegW ws) : NonnegW (l.foldl settleOne ws) := by
  induction l generalizing ws with
  | nil => simpa using h
  | cons p rest ih =>
    rw [List.foldl_cons]
    refine ih (nonnegW_writeWallet ?_ ?_ h)
    · exact (h p.uid).1
    · exact le_max_left 0 _

theorem amounts_append {docs : List (String × PaymentRequest)}
    {x : String × PaymentRequest}
    (h : ∀ p ∈ docs, 0 ≤ p.2.amount) (hx : 0 ≤ x.2.amount) :
    ∀ p ∈ docs ++ [x], 0 ≤ p.2.amount := by
  intro p hp
  rcases List.mem_append.mp hp with h1 | h2
  · exact h p h1
  · rw [List.mem_singleton.mp h2]
    exact hx

/-- Every completed (or aborted) operation preserves the joint invariant. -/
theorem inv_step (db : DB) (op : Op) (db' : DB) (h : Inv db)
    (hs : step db op = .ok db') : Inv db' := by
  obtain ⟨hW, hA, hF⟩ := h
  cases op with
  | depositApprove a rid =>
    simp only [step] at hs
    unfold depositApprove at hs
    split at hs
    · split at hs
      · rename_i r hfind
        split at hs
        · cases hs
          have hamt : 0 ≤ r.amount := hA (rid, r) (findDoc_mem hfind)
          refine ⟨nonnegW_writeWallet ?_ ?_ hW, ?_, ?_⟩
          · exact add_nonneg (hW r.uid).1 hamt
          · exact (hW r.uid).2
          · intro p hp
            dsimp only at hp
            rcases mem_updateDoc hp with hmem | ⟨q, hq, hpq⟩
            · exact hA p hmem
            · rw [hpq]
              exact hA (p.1, q) hq
          · exact hF
        · exact Except.noConfusion hs
      · exact Except.noConfusion hs
    · exact Except.noConfusion hs
  | withdrawRequest u amt upi id =>
    simp only [step] at hs
    unfold withdrawRequest at hs
    split at hs
    · exact Except.noConfusion hs
    · rename_i hval
      push_neg at hval
      obtain ⟨-, h20, -⟩ := hval
      split at hs
      · exact Except.noConfusion hs
      · rename_i hover
        push_neg at hover
        cases hs
        have hamt : 0 ≤ amt := le_trans (by norm_num) h20
        refine ⟨nonnegW_writeWallet ?_ ?_ hW, ?_, ?_⟩
        · exact sub_nonneg.mpr hover
        · exact add_nonneg (hW u).2 hamt
        · exact amounts_append hA hamt
        · exact hF
  | withdrawApprove a rid =>
    simp only [step] at hs
    unfold withdrawApprove at hs
    split at hs
    · split at hs
      · rename_i r hfind
        split at hs
        · split at hs
          · split at hs
            · exact Except.noConfusion hs
            · cases hs
              refine ⟨nonnegW_writeWallet ?_ ?_ hW, ?_, ?_⟩
              · exact (hW r.uid).1
              · exact le_max_left 0 _
              · intro p hp
                dsimp only at hp
                rcases mem_updateDoc hp with hmem | ⟨q, hq, hpq⟩
                · exact hA p hmem
                · rw [hpq]
                  exact hA (p.1, q) hq
              · exact hF
          · exact Except.noConfusion hs
        · exact Except.noConfusion hs
      · exact Except.noConfusion hs
    · exact Except.noConfusion hs
  | withdrawDeny a rid =>
    simp only [step] at hs
    unfold withdrawDeny at hs
    split at hs
    · split at hs
      · rename_i r hfind
        split at hs
        · split at hs
          · exact Except.noConfusion hs
          · cases hs
            have hamt : 0 ≤ r.amount := hA (rid, r) (findDoc_mem hfind)
            refine ⟨nonnegW_writeWallet ?_ ?_ hW, ?_, ?_⟩
            · exact add_nonneg (hW r.uid).1 hamt
            · exact le_max_left 0 _
            · intro p hp
              dsimp only at hp
              rcases mem_updateDoc hp with hmem | ⟨q, hq, hpq⟩
              · exact hA p hmem
              · rw [hpq]
                exact hA (p.1, q) hq
            · exact hF
        · exact Except.noConfusion hs
      · exact Except.noConfusion hs
    · exact Except.noConfusion hs
  | joinMatch u mid now =>
    simp only [step] at hs
    unfold joinMatch at hs
    split at hs
    · exact Except.noConfusion hs
    · rename_i m hfind
      split at hs
      · exact Except.noConfusion hs
      · split at hs
        · exact Except.noConfusion hs
        · split at hs
          · exact Except.noConfusion hs
          · split at hs
            · exact Except.noConfusion hs
            · split at hs
              · exact Except.noConfusion hs
              · rename_i hover
                push_neg at hover
                cases hs
                have hfee : 0 ≤ m.fee := hF (mid, m) (findDoc_mem hfind)
                refine ⟨nonnegW_writeWallet ?_ ?_ hW, hA, hF⟩
                · exact sub_nonneg.mpr hover
                · exact add_nonneg (hW u).2 hfee
  | settleMatch a mid w =>
    simp only [step] at hs
    unfold settleMatch at hs
    split at hs
    · split at hs
      · exact Except.noConfusion hs
      · rename_i m hfind
        split at hs
        · exact Except.noConfusion hs
        · cases hs
          refine ⟨nonnegW_settle hW, hA, ?_⟩
          intro p hp
          dsimp only at hp
          rcases mem_updateDoc hp with hmem | ⟨q, hq, hpq⟩
          · exact hF p hmem
          · rw [hpq]
            exact hF (p.1, q) hq
    · exact Except.noConfusion hs
  | prizeApprove a rid =>
    simp only [step] at hs
    unfold prizeApprove at hs
    split at hs
    · split at hs
      · rename_i r hfind
        split at hs
        · split at hs
          · rename_i m hm
            split at hs
            · cases hs
              have hamt : 0 ≤ r.amount := hA (rid, r) (findDoc_mem hfind)
              refine ⟨nonnegW_writeWallet ?_ ?_ hW, ?_, ?_⟩
              · exact add_nonneg (hW r.uid).1 hamt
              · exact (hW r.uid).2
              · intro p hp
                dsimp only at hp
                rcases mem_updateDoc hp with hmem | ⟨q, hq, hpq⟩
                · exact hA p hmem
                · rw [hpq]
                  exact hA (p.1, q) hq
              · intro p hp
                dsimp only at hp
                rcases mem_updateDoc hp with hmem | ⟨q, hq, hpq⟩
                · exact hF p hmem
                · rw [hpq]
                  exact hF (p.1, q) hq
            · exact Except.noConfusion hs
          · exact Except.noConfusion hs
        · exact Except.noConfusion hs
      · exact Except.noConfusion hs
    · exact Except.noConfusion hs

theorem inv_commit (db : DB) (op : Op) (h : Inv db) : Inv (commit db op) := by
  unfold commit
  cases hs : step db op with
  | ok d => exact inv_step db op d h hs
  | error e => exact h

theorem inv_run (db : DB) (ops : List Op) (h : Inv db) : Inv (run db ops) := by
  induction ops generalizing db with
  | nil => simpa [run] using h
  | cons op rest ih =>
    rw [run, List.foldl_cons]
    exact ih (commit db op) (inv_commit db op h)

/-! ## Claim C1 — wallet non-negativity invariant -/

/-- C1 (amended): for every sequence of the listed operations, started from
wallets with `available ≥ 0 ∧ locked ≥ 0` — and provided every stored
payment request has a non-negative amount and every stored match a
non-negative entry fee — every committed wallet state keeps
`available ≥ 0 ∧ locked ≥ 0`. (The two extra hypotheses are forced:
`createMatch` accepts negative fees, see `c1_counterexample`.) -/
theorem c1_wallet_nonneg_invariant (db : DB) (ops : List Op)
    (hW : WalletsNonneg db) (hA : AmountsNonneg db) (hF : FeesNonneg db) :
    WalletsNonneg (run db ops) :=
  (inv_run db ops ⟨hW, hA, hF⟩).1

/-- C1 witness: the amended theorem applied to a concrete store and a
concrete withdraw-then-deny schedule. -/
theorem c1_wallet_nonneg_invariant_witness :
    WalletsNonneg (run fortyDB
      [Op.withdrawRequest "u" 25 "u@upi" "r1", Op.withdrawDeny "a" "r1"]) := by
  refine c1_wallet_nonneg_invariant fortyDB _ ?_ ?_ ?_
  · intro u
    exact ⟨by norm_num [fortyDB, emptyDB], by norm_num [fortyDB, emptyDB]⟩
  · intro p hp
    simp [fortyDB, emptyDB] at hp
  · intro p hp
    simp [fortyDB, emptyDB] at hp

/-- C1 counterexample to the claim as stated: from all-zero (hence
non-negative) wallets, the single completed operation `joinMatch` on the
fee = -1 match of `c1badDB` commits a wallet with `locked = -1 < 0`. -/
theorem c1_counterexample :
    (c1badDB.wallets "u").available = 0 ∧ (c1badDB.wallets "u").locked = 0 ∧
    ((run c1badDB [Op.joinMatch "u" "m" 50]).wallets "u").locked = -1 :=
  ⟨rfl, rfl, rfl⟩

/-! ## Claim C2 — no double resolution -/

/-- C2: a request whose status is `"approved"` or `"denied"` makes every
resolve endpoint (deposit approve, withdraw approve, withdraw deny, prize
approve) fail with its already-processed error, and the aborted
transactions leave the whole store — the target wallet included —
unchanged. -/
theorem c2_no_double_resolution (db : DB) (adminUid requestId : String)
    (r : PaymentRequest) (hadmin : db.admins adminUid = true)
    (hfind : findDoc db.requests requestId = some r)
    (hdone : r.status = "approved" ∨ r.status = "denied") :
    depositApprove db adminUid requestId
      = .error "Request already processed or invalid." ∧
    withdrawApprove db adminUid requestId = .error "Invalid request state" ∧
    withdrawDeny db adminUid requestId = .error "Invalid request state" ∧
    prizeApprove db adminUid requestId
      = .error "Invalid or already processed request" ∧
    run db [Op.depositApprove adminUid requestId,
            Op.withdrawApprove adminUid requestId,
            Op.withdrawDeny adminUid requestId,
            Op.prizeApprove adminUid requestId] = db := by
  have hnp : ¬ r.status = "pending" := by
    rcases hdone with h | h <;> rw [h] <;> decide
  have h1 : depositApprove db adminUid requestId
      = .error "Request already processed or invalid." := by
    simp only [depositApprove, if_pos hadmin, hfind, if_neg hnp]
  have h2 : withdrawApprove db adminUid requestId
      = .error "Invalid request state" := by
    simp only [withdrawApprove, if_pos hadmin, hfind, if_neg hnp]
  have h3 : withdrawDeny db adminUid requestId
      = .error "Invalid request state" := by
    simp only [withdrawDeny, if_pos hadmin, hfind, if_neg hnp]
  have h4 : prizeApprove db adminUid requestId
      = .error "Invalid or already processed request" := by
    simp only [prizeApprove, if_pos hadmin, hfind, if_neg hnp]
  refine ⟨h1, h2, h3, h4, ?_⟩
  simp only [run, List.foldl_cons, List.foldl_nil, commit, step, h1, h2, h3, h4]

/-- C2 witness: the theorem applied at the concrete store `c2db` holding an
already-approved deposit request. -/
theorem c2_no_double_resolution_witness :
    depositApprove c2db "a" "r1"
      = .error "Request already processed or invalid." ∧
    withdrawApprove c2db "a" "r1" = .error "Invalid request state" ∧
    withdrawDeny c2db "a" "r1" = .error "Invalid request state" ∧
    prizeApprove c2db "a" "r1"
      = .error "Invalid or already processed request" ∧
    run c2db [Op.depositApprove "a" "r1", Op.withdrawApprove "a" "r1",
              Op.withdrawDeny "a" "r1", Op.prizeApprove "a" "r1"] = c2db :=
  c2_no_double_resolution c2db "a" "r1" c2req rfl rfl (Or.inl rfl)

/-! ## Claim C8 — lock/release conservation -/

/-- C8: on a well-formed wallet (`locked ≥ 0`, the data-model invariant),
locking `0 < a ≤ available` (the withdrawal-request lock) and then
releasing the same amount (the withdrawal-deny refund) restores the
original `(available, locked)` pair exactly; moreover the release's own
precondition `a ≤ locked` holds after the lock. -/
theorem c8_lock_release_conservation (w : Wallet) (a : Int)
    (hpos : 0 < a) (hle : a ≤ w.available) (hlk : 0 ≤ w.locked) :
    releaseToAvailable (lockFunds w a) a = w ∧ a ≤ (lockFunds w a).locked := by
  constructor
  · show Wallet.mk (w.available - a + a) (max 0 (w.locked + a - a)) = w
    have h1 : w.available - a + a = w.available := by ring
    have h2 : w.locked + a - a = w.locked := by ring
    rw [h1, h2, max_eq_right hlk]
  · show a ≤ w.locked + a
    omega

/-- C8 witness: conservation at the concrete wallet (100, 7) with a = 40. -/
theorem c8_lock_release_conservation_witness :
    releaseToAvailable (lockFunds { available := 100, locked := 7 } 40) 40
      = { available := 100, locked := 7 } ∧
    (40 : Int) ≤ (lockFunds { available := 100, locked := 7 } 40).locked :=
  c8_lock_release_conservation { available := 100, locked := 7 } 40
    (by decide) (by decide) (by decide)

/-! ## Claim C3 — resolveWithdrawal type guard -/

/-- C3 counterexample to the claim as stated: `c3req` is pending with type
`"deposit"`, yet `withdrawDeny` SUCCEEDS on it and mutates both the wallet
(available 0 → 20, locked 25 → 5) and the request (status → "denied"). -/
theorem c3_counterexample :
    c3req.rtype = "deposit" ∧ c3req.status = "pending" ∧
    (c3db.wallets "u").available = 0 ∧ (c3db.wallets "u").locked = 25 ∧
    (withdrawDeny c3db "a" "r1").toOption.map
        (fun d => ((d.wallets "u").available, (d.wallets "u").locked,
          (findDoc d.requests "r1").map PaymentRequest.status))
      = some (20, 5, some "denied") :=
  ⟨rfl, rfl, rfl, rfl, rfl⟩

/-- C3 (amended): for a pending request of type ≠ "withdraw", withdrawal
APPROVAL fails with the invalid-type error and mutates nothing; withdrawal
DENIAL does not check the type: whenever the request's amount is within the
user's locked pool it succeeds, refunding locked → available and marking
the request denied. -/
theorem c3_withdraw_type_guard (db : DB) (adminUid requestId : String)
    (r : PaymentRequest) (hadmin : db.admins adminUid = true)
    (hfind : findDoc db.requests requestId = some r)
    (hpending : r.status = "pending") (hty : ¬ r.rtype = "withdraw") :
    withdrawApprove db adminUid requestId = .error "Invalid request type." ∧
    commit db (Op.withdrawApprove adminUid requestId) = db ∧
    (r.amount ≤ (db.wallets r.uid).locked →
      ∃ db', withdrawDeny db adminUid requestId = .ok db' ∧
        db'.wallets r.uid = releaseToAvailable (db.wallets r.uid) r.amount ∧
        findDoc db'.requests requestId
          = some { r with status := "denied", deniedBy := some adminUid }) := by
  have happ : withdrawApprove db adminUid requestId
      = .error "Invalid request type." := by
    simp only [withdrawApprove, if_pos hadmin, hfind, if_pos hpending,
      if_neg hty]
  refine ⟨happ, ?_, ?_⟩
  · simp only [commit, step, happ]
  · intro hle
    have hnot : ¬ r.amount > (db.wallets r.uid).locked := not_lt.mpr hle
    have hok : withdrawDeny db adminUid requestId = .ok { db with
        wallets := writeWallet db.wallets r.uid
          (releaseToAvailable (db.wallets r.uid) r.amount),
        requests := updateDoc db.requests requestId
          (fun q => { q with status := "denied", deniedBy := some adminUid }) } := by
      simp only [withdrawDeny, if_pos hadmin, hfind, if_pos hpending,
        if_neg hnot]
    refine ⟨_, hok, ?_, ?_⟩
    · show writeWallet db.wallets r.uid
        (releaseToAvailable (db.wallets r.uid) r.amount) r.uid = _
      unfold writeWallet
      rw [if_pos rfl]
    · dsimp only
      rw [findDoc_updateDoc, hfind]
      rfl

/-- C3 witness: the approve half of the amended theorem at the concrete
store `c3db`. -/
theorem c3_withdraw_type_guard_witness :
    withdrawApprove c3db "a" "r1" = .error "Invalid request type." ∧
    commit c3db (Op.withdrawApprove "a" "r1") = c3db :=
  ⟨(c3_withdraw_type_guard c3db "a" "r1" c3req rfl rfl rfl (by decide)).1,
   (c3_withdraw_type_guard c3db "a" "r1" c3req rfl rfl rfl (by decide)).2.1⟩

/-! ## Claim C4 — clamp versus hard failure on over-locked amounts -/

/-- C4 counterexample to the claim as stated: at `c4db` the pending
withdraw request's amount 30 exceeds locked = 10, and both withdrawal
resolution flows FAIL with a locked-balance-inconsistency error instead of
clamping and committing. -/
theorem c4_counterexample :
    c4req.amount > (c4db.wallets "u").locked ∧
    withdrawApprove c4db "a" "r1"
      = .error "Locked balance inconsistency. Cannot approve." ∧
    withdrawDeny c4db "a" "r1"
      = .error "Locked balance inconsistency detected." :=
  ⟨by decide, rfl, rfl⟩

/-- C4 (amended): when `amount > locked`, withdrawal approve and deny FAIL
with a locked-balance-inconsistency error (their `max 0` clamp is
unreachable for such amounts); only the match-settlement fee burn is
clamp-and-commit: on an unclaimed match it succeeds, setting a roster
player's locked pool to `max 0 (locked - feeLocked)`, available
untouched. -/
theorem c4_clamp_vs_fail (db : DB)
    (adminUid requestId matchId winnerUID : String)
    (r : PaymentRequest) (m : GameMatch) (p : Player)
    (hadmin : db.admins adminUid = true)
    (hfind : findDoc db.requests requestId = some r)
    (hpending : r.status = "pending") (hty : r.rtype = "withdraw")
    (hover : r.amount > (db.wallets r.uid).locked)
    (hm : findDoc db.matchDocs matchId = some m)
    (hncl : ¬ m.status = "claimed")
    (hroster : db.roster matchId = [p]) :
    withdrawApprove db adminUid requestId
      = .error "Locked balance inconsistency. Cannot approve." ∧
    withdrawDeny db adminUid requestId
      = .error "Locked balance inconsistency detected." ∧
    ∃ db', settleMatch db adminUid matchId winnerUID = .ok db' ∧
      (db'.wallets p.uid).locked
        = max 0 ((db.wallets p.uid).locked - p.feeLocked) ∧
      (db'.wallets p.uid).available = (db.wallets p.uid).available := by
  refine ⟨?_, ?_, ?_⟩
  · simp only [withdrawApprove, if_pos hadmin, hfind, if_pos hpending,
      if_pos hty, if_pos hover]
  · simp only [withdrawDeny, if_pos hadmin, hfind, if_pos hpending,
      if_pos hover]
  · have hok : settleMatch db adminUid matchId winnerUID = .ok { db with
        wallets := (db.roster matchId).foldl settleOne db.wallets,
        matchDocs := updateDoc db.matchDocs matchId (fun q =>
          { q with status := "claimed", winnerUID := some winnerUID }) } := by
      simp only [settleMatch, if_pos hadmin, hm, if_neg hncl]
    refine ⟨_, hok, ?_, ?_⟩
    · show ((db.roster matchId).foldl settleOne db.wallets p.uid).locked = _
      rw [hroster]
      show (settleOne db.wallets p p.uid).locked = _
      unfold settleOne writeWallet
      rw [if_pos rfl]
      rfl
    · show ((db.roster matchId).foldl settleOne db.wallets p.uid).available = _
      rw [hroster]
      show (settleOne db.wallets p p.uid).available = _
      unfold settleOne writeWallet
      rw [if_pos rfl]
      rfl

/-- C4 witness: the amended theorem at the concrete store `c4db`. -/
theorem c4_clamp_vs_fail_witness :
    withdrawApprove c4db "a" "r1"
      = .error "Locked balance inconsistency. Cannot approve." ∧
    ∃ db', settleMatch c4db "a" "m" "w" = .ok db' ∧
      (db'.wallets "u").locked = max 0 ((c4db.wallets "u").locked - 30) ∧
      (db'.wallets "u").available = (c4db.wallets "u").available :=
  ⟨(c4_clamp_vs_fail c4db "a" "r1" "m" "w" c4req c4match
      { uid := "u", feeLocked := 30 } rfl rfl rfl rfl (by decide) rfl
      (by decide) rfl).1,
   (c4_clamp_vs_fail c4db "a" "r1" "m" "w" c4req c4match
      { uid := "u", feeLocked := 30 } rfl rfl rfl rfl (by decide) rfl
      (by decide) rfl).2.2⟩

/-! ## Claim C5 — withdrawal request escrow at request time -/

/-- C5: a validated withdrawal request (amount ≥ the 20 minimum, non-empty
upi): if amount ≤ available, it commits the wallet to
(available - a, locked + a) and appends exactly one pending withdraw
request in the same transaction; if amount > available it fails with the
insufficient-funds error and the aborted transaction changes nothing. -/
theorem c5_withdraw_request (db : DB) (uid upi newId : String) (a : Int)
    (hmin : 20 ≤ a) (hupi : ¬ upi = "") :
    (a ≤ (db.wallets uid).available →
      ∃ db', withdrawRequest db uid a upi newId = .ok db' ∧
        db'.wallets uid = lockFunds (db.wallets uid) a ∧
        db'.requests = db.requests ++ [(newId,
          { uid := uid, amount := a, rtype := "withdraw", status := "pending",
            paymentRef := none, upi := some upi, matchId := none,
            approvedBy := none, deniedBy := none })]) ∧
    (a > (db.wallets uid).available →
      withdrawRequest db uid a upi newId
        = .error "Insufficient available balance for extraction" ∧
      commit db (Op.withdrawRequest uid a upi newId) = db) := by
  have hval : ¬ (a = 0 ∨ a < 20 ∨ upi = "") := by
    push_neg
    exact ⟨by omega, by omega, hupi⟩
  constructor
  · intro hle
    have hnot : ¬ a > (db.wallets uid).available := not_lt.mpr hle
    have hok : withdrawRequest db uid a upi newId = .ok { db with
        wallets := writeWallet db.wallets uid (lockFunds (db.wallets uid) a),
        requests := db.requests ++ [(newId,
          { uid := uid, amount := a, rtype := "withdraw", status := "pending",
            paymentRef := none, upi := some upi, matchId := none,
            approvedBy := none, deniedBy := none })] } := by
      simp only [withdrawRequest, if_neg hval, if_neg hnot]
    refine ⟨_, hok, ?_, ?_⟩
    · show writeWallet db.wallets uid (lockFunds (db.wallets uid) a) uid = _
      unfold writeWallet
      rw [if_pos rfl]
    · rfl
  · intro hover
    have herr : withdrawRequest db uid a upi newId
        = .error "Insufficient available balance for extraction" := by
      simp only [withdrawRequest, if_neg hval, if_pos hover]
    exact ⟨herr, by simp only [commit, step, herr]⟩

/-- C5 witness: the success branch at the all-40 store. -/
theorem c5_withdraw_request_witness :
    ∃ db', withdrawRequest fortyDB "u" 25 "u@upi" "r1" = .ok db' ∧
      db'.wallets "u" = lockFunds (fortyDB.wallets "u") 25 ∧
      db'.requests = fortyDB.requests ++ [("r1",
        { uid := "u", amount := 25, rtype := "withdraw", status := "pending",
          paymentRef := none, upi := some "u@upi", matchId := none,
          approvedBy := none, deniedBy := none })] :=
  (c5_withdraw_request fortyDB "u" "u@upi" "r1" 25
    (by decide) (by decide)).1 (by decide)

/-! ## Claim C6 — match capacity -/

/-- C6: joining an open match whose roster (read from the roster collection
inside the transaction) already fills every slot fails with the match-full
error, and the aborted transaction leaves wallet and roster unchanged. The
extra hypotheses mirror the guards that run before the capacity check: the
joiner is not already on the roster and the deployment window is open. -/
theorem c6_capacity_exceeded (db : DB) (uid matchId : String) (now : Int)
    (m : GameMatch) (hm : findDoc db.matchDocs matchId = some m)
    (hopen : m.status = "open")
    (hnew : ¬ (db.roster matchId).any (fun p => p.uid == uid) = true)
    (htime : ¬ (m.startTime ≠ 0 ∧ now ≥ m.startTime))
    (hfull : m.slots ≤ ((db.roster matchId).length : Int)) :
    joinMatch db uid matchId now
      = .error "Match is full. All deployment slots occupied." ∧
    commit db (Op.joinMatch uid matchId now) = db := by
  have hopen' : ¬ m.status ≠ "open" := by simp [hopen]
  have herr : joinMatch db uid matchId now
      = .error "Match is full. All deployment slots occupied." := by
    simp only [joinMatch, hm, if_neg hnew, if_neg htime, if_neg hopen',
      if_pos hfull]
  exact ⟨herr, by simp only [commit, step, herr]⟩

/-- C6 witness: the theorem at the full single-slot match of `c6db`. -/
theorem c6_capacity_exceeded_witness :
    joinMatch c6db "u" "m" 50
      = .error "Match is full. All deployment slots occupied." ∧
    commit c6db (Op.joinMatch "u" "m" 50) = c6db :=
  c6_capacity_exceeded c6db "u" "m" 50 c6match rfl rfl (by decide)
    (by decide) (by decide)

/-! ## Claim C7 — createMatch validation -/

/-- C7 counterexample to the claim as stated: `createMatch` accepts
slots = 0 and fee = -1 (only startTime is validated), creating an open
match — the claim says such parameters are rejected with a validation
error and no match is created. -/
theorem c7_counterexample :
    (createMatch emptyDB "a" 0 (-1) 10 (some 5) "m").toOption.map
        (fun d => (findDoc d.matchDocs "m").map
          (fun m => (m.slots, m.fee, m.status)))
      = some (some (0, -1, "open")) :=
  rfl

/-- C7 (amended): `createMatch` validates ONLY the start time: an absent
(or non-numeric) startTime is rejected with the validation error; any
slots/fee values — including slots < 1 and fee < 0 — are accepted, and on
success the new match has status "open" and the given fields, while the
roster and wallet stores are untouched. -/
theorem c7_create_match_validation (db : DB) (adminUid newId : String)
    (slots fee prize : Int) (stOpt : Option Int)
    (hadmin : db.admins adminUid = true)
    (hfresh : findDoc db.matchDocs newId = none) :
    (stOpt = none →
      createMatch db adminUid slots fee prize stOpt newId
        = .error "Invalid match start time") ∧
    (∀ st, stOpt = some st →
      ∃ db', createMatch db adminUid slots fee prize stOpt newId = .ok db' ∧
        findDoc db'.matchDocs newId = some
          { slots := slots, fee := fee, prize := prize, startTime := st,
            status := "open", winnerUID := none, payoutRequested := false,
            payoutStatus := none, createdBy := adminUid } ∧
        db'.roster = db.roster ∧ db'.wallets = db.wallets) := by
  constructor
  · intro hnone
    simp only [createMatch, if_pos hadmin, hnone]
  · intro st hst
    have hok : createMatch db adminUid slots fee prize stOpt newId = .ok
        { db with matchDocs := db.matchDocs ++ [(newId,
          { slots := slots, fee := fee, prize := prize, startTime := st,
            status := "open", winnerUID := none, payoutRequested := false,
            payoutStatus := none, createdBy := adminUid })] } := by
      simp only [createMatch, if_pos hadmin, hst]
    refine ⟨_, hok, ?_, rfl, rfl⟩
    exact findDoc_append_of_none hfresh _

/-- C7 witness: both halves of the amended theorem at the empty store. -/
theorem c7_create_match_validation_witness :
    createMatch emptyDB "a" 3 10 25 none "m"
      = .error "Invalid match start time" ∧
    ∃ db', createMatch emptyDB "a" 3 10 25 (some 7) "m" = .ok db' ∧
      findDoc db'.matchDocs "m" = some
        { slots := 3, fee := 10, prize := 25, startTime := 7,
          status := "open", winnerUID := none, payoutRequested := false,
          payoutStatus := none, createdBy := "a" } ∧
      db'.roster = emptyDB.roster ∧ db'.wallets = emptyDB.wallets :=
  ⟨(c7_create_match_validation emptyDB "a" "m" 3 10 25 none rfl rfl).1 rfl,
   (c7_create_match_validation emptyDB "a" "m" 3 10 25 (some 7) rfl rfl).2
     7 rfl⟩

/-! ## Claim C9 — deposit duplicate-reference check -/

/-- C9: for a validated deposit submission (amount ≥ the 20 minimum,
non-empty reference): if some stored request already carries the same
(uid, paymentRef) pair the submission is rejected with the
duplicate-reference error (and, being a rejection, writes nothing);
otherwise exactly one new pending deposit request for that pair is
appended and nothing else — wallets included — changes. -/
theorem c9_deposit_duplicate_check (db : DB) (uid pref utr newId : String)
    (a : Int) (hmin : 20 ≤ a) (href : ¬ pref = "") :
    ((∃ p ∈ db.requests, p.2.uid = uid ∧ p.2.paymentRef = some pref) →
      depositRequest db uid pref utr a newId
        = .error "This reference has already been submitted by your account.") ∧
    ((¬ ∃ p ∈ db.requests, p.2.uid = uid ∧ p.2.paymentRef = some pref) →
      depositRequest db uid pref utr a newId = .ok { db with
        requests := db.requests ++ [(newId,
          { uid := uid, amount := a, rtype := "deposit", status := "pending",
            paymentRef := some pref, upi := none, matchId := none,
            approvedBy := none, deniedBy := none })] }) := by
  have hr : refOf pref utr = pref := if_pos href
  have hval : ¬ (a = 0 ∨ refOf pref utr = "" ∨ a < 20) := by
    rw [hr]
    push_neg
    exact ⟨by omega, href, by omega⟩
  have hiff : (db.requests.any
      (fun p => p.2.uid == uid && p.2.paymentRef == some pref)) = true
      ↔ ∃ p ∈ db.requests, p.2.uid = uid ∧ p.2.paymentRef = some pref := by
    simp [List.any_eq_true]
  constructor
  · intro hdup
    have hdup' : (db.requests.any (fun p =>
        p.2.uid == uid && p.2.paymentRef == some (refOf pref utr))) = true := by
      rw [hr]
      exact hiff.mpr hdup
    simp only [depositRequest, if_neg hval, if_pos hdup']
  · intro hnew
    have hnew' : ¬ (db.requests.any (fun p =>
        p.2.uid == uid && p.2.paymentRef == some (refOf pref utr))) = true := by
      rw [hr]
      exact fun h => hnew (hiff.mp h)
    simp only [depositRequest, if_neg hval, if_neg hnew']
    rw [hr]

/-- C9 witness: the fresh-reference branch at the empty store. -/
theorem c9_deposit_duplicate_check_witness :
    depositRequest emptyDB "u" "ref1" "" 20 "r1" = .ok { emptyDB with
      requests := emptyDB.requests ++ [("r1",
        { uid := "u", amount := 20, rtype := "deposit", status := "pending",
          paymentRef := some "ref1", upi := none, matchId := none,
          approvedBy := none, deniedBy := none })] } :=
  (c9_deposit_duplicate_check emptyDB "u" "ref1" "" "r1" 20
    (by decide) (by decide)).2 (by simp [emptyDB])

/-! ## Claim C10 — prize approval ignores the request type -/

/-- C10: prize approval never inspects the request's type: any pending
request whose matchId names a claimed match is approved — its amount is
credited to its uid's available pool, the request is marked approved, and
the match is stamped payoutStatus = "paid". -/
theorem c10_prize_approve_no_type_check (db : DB)
    (adminUid requestId mid : String) (r : PaymentRequest) (m : GameMatch)
    (hadmin : db.admins adminUid = true)
    (hfind : findDoc db.requests requestId = some r)
    (hpending : r.status = "pending")
    (hmid : r.matchId = some mid)
    (hm : findDoc db.matchDocs mid = some m)
    (hclaimed : m.status = "claimed") :
    ∃ db', prizeApprove db adminUid requestId = .ok db' ∧
      db'.wallets r.uid = creditAvailable (db.wallets r.uid) r.amount ∧
      findDoc db'.requests requestId
        = some { r with status := "approved", approvedBy := some adminUid } ∧
      findDoc db'.matchDocs mid
        = some { m with payoutStatus := some "paid" } := by
  have hkey : r.matchId.getD "undefined" = mid := by rw [hmid]; rfl
  have hok : prizeApprove db adminUid requestId = .ok { db with
      wallets := writeWallet db.wallets r.uid
        (creditAvailable (db.wallets r.uid) r.amount),
      requests := updateDoc db.requests requestId
        (fun q => { q with status := "approved", approvedBy := some adminUid }),
      matchDocs := updateDoc db.matchDocs mid
        (fun q => { q with payoutStatus := some "paid" }) } := by
    simp only [prizeApprove, if_pos hadmin, hfind, if_pos hpending, hkey, hm,
      if_pos hclaimed]
  refine ⟨_, hok, ?_, ?_, ?_⟩
  · show writeWallet db.wallets r.uid
      (creditAvailable (db.wallets r.uid) r.amount) r.uid = _
    unfold writeWallet
    rw [if_pos rfl]
  · dsimp only
    rw [findDoc_updateDoc, hfind]
    rfl
  · dsimp only
    rw [findDoc_updateDoc, hm]
    rfl

/-- C10 witness: the theorem at `c10db`, whose pending request has type
"deposit" yet is paid out as a prize. -/
theorem c10_prize_approve_no_type_check_witness :
    c10req.rtype = "deposit" ∧
    ∃ db', prizeApprove c10db "a" "r1" = .ok db' ∧
      db'.wallets "u" = creditAvailable (c10db.wallets "u") 55 ∧
      findDoc db'.requests "r1"
        = some { c10req with status := "approved", approvedBy := some "a" } ∧
      findDoc db'.matchDocs "m"
        = some { c10match with payoutStatus := some "paid" } :=
  ⟨rfl, c10_prize_approve_no_type_check c10db "a" "r1" "m" c10req c10match
    rfl rfl rfl rfl rfl rfl⟩

end Warzone
